import Mathlib

/-!
Shallow embedding of the OS161-VM virtual-memory subsystem
(src/kern/vm/addrspace.c, src/kern/vm/page_table.c, src/kern/vm/vm.c,
src/kern/syscall/mem_syscalls.c, src/kern/include/addrspace.h).

Machine integers (vaddr_t, paddr_t) are 32-bit; they are modelled as Nat
with explicit reduction mod 2^32 where C unsigned arithmetic can wrap.
Bit masks on the frame word are kept literal (&&&, |||); power-of-two
index/alignment arithmetic on addresses is written with / and %, each
definition noting the C expression it embeds.

The repository contains two generations of the PTE / page-table layer:
the functions in page_table.c (which match the declarations in
addrspace.h) and older duplicates in addrspace.c and static copies in
vm.c.  Where the two generations differ the embedding keeps both, the
addrspace.c variant under an addrspace_ prefixed name.
-/

/-- PAGE_SIZE: 4096 bytes (spec section 3; the constant lives in the missing vm.h). -/
def PAGE_SIZE : Nat := 4096

/-- Modelled from the spec: 2^32, the size of the 32-bit address space. -/
def U32 : Nat := 4294967296

/-- PAGE_FRAME: mask isolating the frame number, 0xfffff000 (spec section 3;
the constant lives in the missing mips/vm.h). -/
def PAGE_FRAME : Nat := 0xfffff000

/-- Modelled from the spec: TLBLO_DIRTY, the hardware writable bit in the low
12 control bits of a physical address (bit 10 = 0x400 on MIPS; mips/tlb.h is
not in src). -/
def TLBLO_DIRTY : Nat := 0x400

/-- Modelled from the spec: TLBLO_VALID, the hardware valid bit (bit 9 = 0x200
on MIPS; mips/tlb.h is not in src). -/
def TLBLO_VALID : Nat := 0x200

/-- Modelled from the spec: USERSTACK, the fixed top of the user stack
(0x80000000 on MIPS; the constant lives in the missing mips/vm.h). -/
def USERSTACK : Nat := 0x80000000

/-- YANG_VM_STACKPAGES = 18 (addrspace.h line 63). -/
def YANG_VM_STACKPAGES : Nat := 18

/-- Modelled from the spec: ELF permission flag PF_R (elf.h is not in src). -/
def PF_R : Nat := 4

/-- Modelled from the spec: ELF permission flag PF_W (elf.h is not in src). -/
def PF_W : Nat := 2

/-- Modelled from the spec: ELF permission flag PF_X (elf.h is not in src). -/
def PF_X : Nat := 1

/-- Error codes returned by the subsystem (kern/errno.h is not in src; the
spec section 7 names the abstract categories: ENOMEM = OUT_OF_MEMORY,
EFAULT = BAD_ACCESS, EINVAL = INVALID_ARG). -/
inductive Errno where
  | ENOMEM
  | EFAULT
  | EINVAL
  | ENOSYS
deriving Repr, DecidableEq

/-- Page-table entry, struct page_table_entry of addrspace.h lines 87-94.
frame is the physical address with control bits; ref_count and the shared
bit exist under OPT_COW (= 1 in addrspace.h line 33).  The page contents
reachable through frame are modelled by the abstract field content
(a byte-for-byte page copy is content equality), and the C object identity
(the pointer value) by the field id. -/
structure PTE where
  frame : Nat
  ref_count : Nat
  shared : Bool
  content : Nat
  id : Nat
deriving Repr, DecidableEq

/-- Observation of the DIRTY (writable) control bit: frame & TLBLO_DIRTY,
i.e. bit 10 of the frame word. -/
def pteDirty (f : Nat) : Bool := f.testBit 10

/-- The PTE invariant of spec section 8: refcount at least 1, and a set
DIRTY bit implies sole ownership. -/
def pteInv (p : PTE) : Prop :=
  1 ≤ p.ref_count ∧ (pteDirty p.frame = true → p.ref_count = 1)

instance (p : PTE) : Decidable (pteInv p) := by
  unfold pteInv; infer_instance

/-- Outcome of the allocator calls made inside new_pte (kmalloc of the PTE,
alloc_kpages of the frame, lock_create), which are external collaborators.
pagePaddr = none models alloc_kpages returning 0.  freshId is the identity
of the kmalloc result and sharedBit the indeterminate value of the shared
bit-field, which new_pte never initializes. -/
structure AllocState where
  kmallocOk : Bool
  pagePaddr : Option Nat
  lockOk : Bool
  freshId : Nat
  sharedBit : Bool
deriving Repr, DecidableEq

/-- Result of a C function that returns a pointer and can also fail a
KASSERT: ok, NULL, or a kernel panic. -/
inductive PtrResult (α : Type) where
  | ok (a : α)
  | null
  | panic
deriving Repr, DecidableEq

/-- new_pte, page_table.c lines 67-97 (identical in addrspace.c lines
182-212 and vm.c lines 14-41): kmalloc the PTE, alloc_kpages(1), bzero the
page, KASSERT the physical address is page aligned, set frame, create the
lock, ref_count = 1.  The shared bit-field is left uninitialized. -/
def new_pte (a : AllocState) : PtrResult PTE :=
  if !a.kmallocOk then .null
  else
    match a.pagePaddr with
    | none => .null
    | some paddr =>
      -- KASSERT((paddr & PAGE_FRAME) == paddr)
      if paddr &&& PAGE_FRAME ≠ paddr then .panic
      else if !a.lockOk then .null
      else .ok { frame := paddr, ref_count := 1, shared := a.sharedBit,
                 content := 0, id := a.freshId }

/-- pte_inc_ref, page_table.c lines 55-64 (identical in addrspace.c lines
170-179): under the PTE lock, increment ref_count and clear the DIRTY bit,
frame &= ~TLBLO_DIRTY (~0x400 as uint32 = 0xfffffbff).  The
KASSERT(pte->ref_count > 0) precondition appears as a hypothesis in the
theorems using this. -/
def pte_inc_ref (p : PTE) : PTE :=
  { p with ref_count := p.ref_count + 1, frame := p.frame &&& 0xfffffbff }

/-- Result of pte_dec_ref: the entry survives with a decremented count, or
it is destroyed (pte_destroy frees the frame), or a KASSERT fails. -/
inductive DecRefResult where
  | survives (p : PTE)
  | destroyed
  | panic
deriving Repr, DecidableEq

/-- pte_dec_ref, page_table.c lines 40-54: KASSERT(ref_count > 0); if
ref_count > 1 decrement, else release the lock and pte_destroy. -/
def pte_dec_ref (p : PTE) : DecRefResult :=
  if p.ref_count = 0 then .panic
  else if p.ref_count > 1 then .survives { p with ref_count := p.ref_count - 1 }
  else .destroyed

/-- pte_dec_ref as written in addrspace.c lines 151-169: after the guarded
decrement it re-tests ref_count == 1 and destroys, so a count of 2 is
decremented to 1 and the entry is then destroyed as well. -/
def addrspace_pte_dec_ref (p : PTE) : DecRefResult :=
  if p.ref_count = 0 then .panic
  else
    let p1 := if p.ref_count > 1 then { p with ref_count := p.ref_count - 1 } else p
    if p1.ref_count = 1 then .destroyed
    else .survives p1

/-- pte_copy, page_table.c lines 145-167: allocate a fresh PTE, memmove the
page contents, carry the non-frame bits over (new->frame |= pte->frame &
~PAGE_FRAME, with ~PAGE_FRAME = 0xfff as uint32).  The source PTE is only
read: the function returns the new entry and the (unchanged) old entry, the
pair making the absence of any write to the old PTE explicit. -/
def pte_copy (a : AllocState) (p : PTE) : PtrResult (PTE × PTE) :=
  match new_pte a with
  | .null => .null
  | .panic => .panic
  | .ok n => .ok ({ n with content := p.content, frame := n.frame ||| (p.frame &&& 0xfff) }, p)

/-- Result of pte_copy_on_write: the sole-owned entry itself made writable,
or a fresh writable entry together with the decremented old entry, or NULL
on allocation failure (the old entry then untouched), or a panic. -/
inductive CowResult where
  | samePte (p : PTE)
  | newPte (n : PTE) (old : PTE)
  | null (old : PTE)
  | panic
deriving Repr, DecidableEq

/-- pte_copy_on_write, page_table.c lines 103-143 (the function named
pte_copy in addrspace.c lines 217-257 is the same algorithm, and the static
pte_copy_on_write in vm.c lines 46-75 differs only in delegating the final
decrement to pte_dec_ref, with the same outcome): if ref_count == 1 set
DIRTY on the entry itself; otherwise allocate a copy, carry over the
non-frame bits, set DIRTY on the copy and decrement the old count, with
KASSERT(pte->ref_count > 0) after the decrement. -/
def pte_copy_on_write (a : AllocState) (p : PTE) : CowResult :=
  if p.ref_count = 1 then .samePte { p with frame := p.frame ||| TLBLO_DIRTY }
  else
    match new_pte a with
    | .null => .null p
    | .panic => .panic
    | .ok n =>
        if p.ref_count - 1 = 0 then .panic
        else .newPte { n with content := p.content, frame := (n.frame ||| (p.frame &&& 0xfff)) ||| TLBLO_DIRTY } { p with ref_count := p.ref_count - 1 }

-- Bit-level facts about the DIRTY observation.

theorem pteDirty_clear (f : Nat) : pteDirty (f &&& 0xfffffbff) = false := by
  have h : Nat.testBit 0xfffffbff 10 = false := by decide
  simp [pteDirty, Nat.testBit_and, h]

theorem pteDirty_set (f : Nat) : pteDirty (f ||| TLBLO_DIRTY) = true := by
  have h : Nat.testBit TLBLO_DIRTY 10 = true := by decide
  simp [pteDirty, Nat.testBit_or, h]

theorem pteDirty_aligned {paddr : Nat} (h : paddr &&& PAGE_FRAME = paddr) :
    pteDirty paddr = false := by
  have h10 : (paddr &&& PAGE_FRAME).testBit 10 = paddr.testBit 10 := by rw [h]
  rw [Nat.testBit_and] at h10
  have hm : (PAGE_FRAME).testBit 10 = false := by decide
  simp [hm] at h10
  simpa [pteDirty] using h10.symm

theorem new_pte_eq {a : AllocState} {p : PTE} (h : new_pte a = .ok p) :
    ∃ paddr, a.pagePaddr = some paddr ∧ paddr &&& PAGE_FRAME = paddr ∧
      p = { frame := paddr, ref_count := 1, shared := a.sharedBit, content := 0, id := a.freshId } := by
  unfold new_pte at h
  cases hk : a.kmallocOk <;> simp [hk] at h
  cases hp : a.pagePaddr with
  | none => simp [hp] at h
  | some paddr =>
      simp only [hp] at h
      by_cases hal : paddr &&& PAGE_FRAME = paddr
      · cases hl : a.lockOk <;> simp [hal, hl] at h
        exact ⟨paddr, rfl, hal, h.symm⟩
      · simp [hal] at h

theorem new_pte_frame_aligned {a : AllocState} {p : PTE} (h : new_pte a = .ok p) :
    p.frame &&& PAGE_FRAME = p.frame := by
  obtain ⟨paddr, _, hal, hp⟩ := new_pte_eq h
  rw [hp]
  exact hal

theorem new_pte_ok {a : AllocState} {p : PTE} (h : new_pte a = .ok p) :
    p.ref_count = 1 ∧ p.content = 0 ∧ p.id = a.freshId ∧ pteDirty p.frame = false := by
  obtain ⟨paddr, _, hal, hp⟩ := new_pte_eq h
  subst hp
  exact ⟨rfl, rfl, rfl, pteDirty_aligned hal⟩

theorem aligned_low_bits {x : Nat} (h : x &&& PAGE_FRAME = x) : x &&& 0xfff = 0 := by
  apply Nat.eq_of_testBit_eq
  intro i
  rw [Nat.testBit_and]
  simp only [Nat.zero_testBit]
  by_cases hi : i < 12
  · have hx : x.testBit i = false := by
      conv_lhs => rw [← h]
      rw [Nat.testBit_and]
      have hm : PAGE_FRAME.testBit i = false := by
        interval_cases i <;> decide
      simp [hm]
    simp [hx]
  · have hm : (0xfff : Nat).testBit i = false := by
      have h12 : (0xfff : Nat) < 2 ^ 12 := by norm_num
      have hle : (2 : Nat) ^ 12 ≤ 2 ^ i := Nat.pow_le_pow_right (by norm_num) (by omega)
      exact Nat.testBit_lt_two_pow (lt_of_lt_of_le h12 hle)
    simp [hm]

theorem lor_low {x y : Nat} (hx : x &&& 0xfff = 0) : (x ||| y) &&& 0xfff = y &&& 0xfff := by
  apply Nat.eq_of_testBit_eq
  intro i
  rw [Nat.testBit_and, Nat.testBit_or, Nat.testBit_and]
  have hb := congrArg (fun z => z.testBit i) hx
  simp only [Nat.testBit_and, Nat.zero_testBit] at hb
  rcases Bool.and_eq_false_iff.mp hb with h | h
  · simp [h]
  · simp [h]

/-- Sample PTE with two referencing slots (refcount 2, VALID set, DIRTY
clear), used as the concrete input for the pte_dec_ref and pte_copy
claims. -/
def pteTwoRef : PTE :=
  { frame := 0x5200, ref_count := 2, shared := true, content := 9, id := 3 }

/-- Allocator state in which every collaborator call succeeds and the fresh
frame is the page at 0x7000. -/
def allocOk7 : AllocState :=
  { kmallocOk := true, pagePaddr := some 0x7000, lockOk := true, freshId := 42, sharedBit := false }

/-- The PTE that pte_copy allocOk7 pteTwoRef produces. -/
def pteTwoRefCopy : PTE :=
  { frame := 0x7200, ref_count := 1, shared := false, content := 9, id := 42 }

/-- C4: pte_dec_ref on a PTE with refcount 2.  The page_table.c
implementation (pte_dec_ref) only decrements and the PTE survives, as the
claim states; the duplicate implementation in addrspace.c lines 151-169
(addrspace_pte_dec_ref) decrements 2 to 1 and then, because it re-tests
ref_count == 1 after the decrement, destroys the PTE and frees the frame
while another page-table slot still references it. -/
theorem claim_C4_pte_dec_ref :
    pte_dec_ref pteTwoRef = .survives { pteTwoRef with ref_count := 1 } ∧
    addrspace_pte_dec_ref pteTwoRef = .destroyed ∧
    pte_dec_ref { pteTwoRef with ref_count := 1 } = .destroyed := by
  refine ⟨by decide, by decide, by decide⟩

/-- C5 counterexample: pte_copy (page_table.c lines 145-167) does not
decrement the refcount of its argument: on a PTE with refcount 2 the
returned source PTE is unchanged, refcount still 2. -/
theorem claim_C5_counterexample :
    pte_copy allocOk7 pteTwoRef = .ok (pteTwoRefCopy, pteTwoRef) ∧
    pteTwoRef.ref_count = 2 ∧ pteTwoRefCopy.ref_count = 1 := by
  refine ⟨by decide, by decide, by decide⟩

/-- C5 (amended): for every PTE p with refcount at least 1, pte_copy with a
fresh allocation returns a PTE distinct from p with refcount 1, whose frame
holds a byte-for-byte copy of the page of p and carries over the non-frame
bits of p.frame, and leaves p unchanged: the refcount of p is not
decremented and p is not destroyed. -/
theorem claim_C5_pte_copy (a : AllocState) (p c old : PTE)
    (hrc : 1 ≤ p.ref_count) (hid : a.freshId ≠ p.id)
    (h : pte_copy a p = .ok (c, old)) :
    c ≠ p ∧ c.ref_count = 1 ∧ c.content = p.content ∧
    c.frame &&& 0xfff = p.frame &&& 0xfff ∧ old = p := by
  unfold pte_copy at h
  cases hn : new_pte a with
  | null => rw [hn] at h; exact absurd h (by simp)
  | panic => rw [hn] at h; exact absurd h (by simp)
  | ok n =>
      rw [hn] at h
      simp only [PtrResult.ok.injEq, Prod.mk.injEq] at h
      obtain ⟨hc, hold⟩ := h
      obtain ⟨paddr, _, hal, hne⟩ := new_pte_eq hn
      have hnal : n.frame &&& PAGE_FRAME = n.frame := new_pte_frame_aligned hn
      have hlow : n.frame &&& 0xfff = 0 := aligned_low_bits hnal
      refine ⟨?_, ?_, ?_, ?_, hold.symm⟩
      · intro hcp
        apply hid
        have : c.id = p.id := by rw [hcp]
        rw [← hc] at this
        simp at this
        rw [← this]
        rw [hne]
      · rw [← hc]
        simp
        rw [hne]
      · rw [← hc]
      · rw [← hc]
        simp only
        rw [lor_low hlow]
        have hm : (0xfff : Nat) &&& 0xfff = 0xfff := by decide
        rw [Nat.and_assoc, hm]

theorem claim_C5_pte_copy_witness :
    pteTwoRefCopy ≠ pteTwoRef ∧ pteTwoRefCopy.ref_count = 1 ∧
    pteTwoRefCopy.content = pteTwoRef.content ∧
    pteTwoRefCopy.frame &&& 0xfff = pteTwoRef.frame &&& 0xfff ∧ pteTwoRef = pteTwoRef :=
  claim_C5_pte_copy allocOk7 pteTwoRef pteTwoRefCopy pteTwoRef (by decide) (by decide) (by decide)

/-- Memory region, struct region of addrspace.h lines 70-84 (the type, fd
and offset fields are not used by any embedded function and are omitted;
prev links are only produced by code outside src). -/
structure Region where
  vbase : Nat
  npages : Nat
  vtop : Nat
  readable : Bool
  writeable : Bool
  executable : Bool
deriving Repr, DecidableEq

/-- One second-level table as used by the static page-table helpers of
vm.c: 512 optional PTE slots (struct l2_page_table of addrspace.h; the
slots with index 512 and above of the modelling function are never
addressed, as L2_INDEX masks with 511). -/
structure VL2 where
  entries : Nat → Option PTE

/-- First-level table of the static vm.c helpers: 2048 optional pointers to
second-level tables. -/
structure VPT where
  tables : Nat → Option VL2

/-- Pointwise update of an index-to-option function (models assignment into
a C array slot). -/
def fupd {α : Type} (f : Nat → Option α) (i : Nat) (v : Option α) : Nat → Option α :=
  fun j => if j = i then v else f j

/-- L1_INDEX(x) = x >> (L2_BITS + OFFSET_BITS) = x >> 21 (addrspace.h line 57). -/
def L1_INDEX (x : Nat) : Nat := x >>> 21

/-- L2_INDEX(x) = (x >> OFFSET_BITS) & ((1 << L2_BITS) - 1) = (x >> 12) & 511
(addrspace.h line 58). -/
def L2_INDEX (x : Nat) : Nat := (x >>> 12) &&& 511

/-- page_table_lookup, static in vm.c lines 77-88: follow the two levels,
NULL when the first level slot is empty. -/
def vm_page_table_lookup (pt : VPT) (vaddr : Nat) : Option PTE :=
  match pt.tables (L1_INDEX vaddr) with
  | none => none
  | some t => t.entries (L2_INDEX vaddr)

/-- page_table_add_entry, static in vm.c lines 90-112: materialize the
second-level table when absent (kmalloc, may fail with ENOMEM, modelled by
the l2Ok flag), then store the entry; an existing entry at the slot is
overwritten. -/
def vm_page_table_add_entry (pt : VPT) (vaddr : Nat) (pte : PTE) (l2Ok : Bool) :
    Except Errno VPT :=
  match pt.tables (L1_INDEX vaddr) with
  | none =>
      if !l2Ok then .error .ENOMEM
      else .ok ⟨fupd pt.tables (L1_INDEX vaddr)
        (some ⟨fupd (fun _ => none) (L2_INDEX vaddr) (some pte)⟩)⟩
  | some t => .ok ⟨fupd pt.tables (L1_INDEX vaddr)
      (some ⟨fupd t.entries (L2_INDEX vaddr) (some pte)⟩)⟩

/-- find_region, static in vm.c lines 140-150: first region of the list
with vbase <= vaddr < vtop. -/
def find_region (regions : List Region) (vaddr : Nat) : Option Region :=
  match regions with
  | [] => none
  | r :: rest => if r.vbase ≤ vaddr ∧ vaddr < r.vtop then some r else find_region rest vaddr

/-- Address space as consumed by vm_fault: region list, page table and the
force_readwrite flag (struct addrspace of addrspace.h; the heap and stack
anchors are irrelevant to the fault handler). -/
structure AS where
  regions : List Region
  force_readwrite : Bool
  page_table : VPT

/-- Fault types of the missing vm.h: VM_FAULT_READ, VM_FAULT_WRITE,
VM_FAULT_READONLY.  Any other value makes vm_fault return EINVAL and is not
modelled. -/
inductive FaultType where
  | read
  | write
  | readonly
deriving Repr, DecidableEq

/-- Outcome of vm_fault: success with the possibly updated page table
(the TLB write is an effect on the external TLB collaborator and carries no
information for the claims), an error code, or a crash (NULL dereference or
KASSERT failure). -/
inductive VMResult where
  | ok (pt : VPT)
  | err (e : Errno)
  | crash

/-- Allocation environment of one vm_fault call: the collaborator outcomes
consumed by new_pte and the kmalloc of a second-level table inside
page_table_add_entry. -/
structure FaultAlloc where
  pteAlloc : AllocState
  l2Ok : Bool

/-- vm_fault, vm.c lines 161-287.  Control flow in source order: fault-type
switch; look up the PTE; if present, a READONLY fault re-checks the region
(NULL region dereferenced unchecked: crash), rejects a non-writable region
with EFAULT, performs pte_copy_on_write (KASSERT new_entry != NULL turns an
allocation failure into a panic; KASSERT new_entry->ref_count == 1), and
installs the result, while READ/WRITE faults with a present PTE load the
TLB directly and return 0; if absent, the region is checked (EFAULT when
none, when READ on a non-readable region, or when WRITE on a non-writable
region with force_readwrite off), a fresh PTE is allocated — the NULL
return of new_pte is dereferenced unchecked: crash — VALID and, for a
writable region, DIRTY are set, and the entry is installed. -/
def vm_fault (as : AS) (alloc : FaultAlloc) (ft : FaultType) (addr : Nat) : VMResult :=
  match vm_page_table_lookup as.page_table addr with
  | some pte =>
    match ft with
    | .readonly =>
      match find_region as.regions addr with
      | none => .crash
      | some r =>
        if r.writeable = false then .err .EFAULT
        else
          match pte_copy_on_write alloc.pteAlloc pte with
          | .null _ => .crash
          | .panic => .crash
          | .samePte q =>
              if q.ref_count ≠ 1 then .crash
              else match vm_page_table_add_entry as.page_table addr q alloc.l2Ok with
                   | .error e => .err e
                   | .ok pt2 => .ok pt2
          | .newPte q _ =>
              if q.ref_count ≠ 1 then .crash
              else match vm_page_table_add_entry as.page_table addr q alloc.l2Ok with
                   | .error e => .err e
                   | .ok pt2 => .ok pt2
    | _ => .ok as.page_table
  | none =>
    match find_region as.regions addr with
    | none => .err .EFAULT
    | some r =>
      if r.readable = false ∧ ft = .read then .err .EFAULT
      else if r.writeable = false ∧ as.force_readwrite = false ∧ ft = .write then .err .EFAULT
      else
        match new_pte alloc.pteAlloc with
        | .null => .crash
        | .panic => .crash
        | .ok n =>
          match vm_page_table_add_entry as.page_table addr
            { n with frame := (n.frame ||| TLBLO_VALID) |||
              (if r.writeable then TLBLO_DIRTY else 0) } alloc.l2Ok with
          | .error e => .err e
          | .ok pt2 => .ok pt2

/-- Every PTE installed in a table satisfies the PTE invariant. -/
def tableInv (pt : VPT) : Prop :=
  ∀ i j l2 p, pt.tables i = some l2 → l2.entries j = some p → pteInv p

theorem lookup_some {pt : VPT} {addr : Nat} {p : PTE}
    (h : vm_page_table_lookup pt addr = some p) :
    ∃ l2, pt.tables (L1_INDEX addr) = some l2 ∧ l2.entries (L2_INDEX addr) = some p := by
  unfold vm_page_table_lookup at h
  cases ht : pt.tables (L1_INDEX addr) with
  | none => rw [ht] at h; exact absurd h (by simp)
  | some t => rw [ht] at h; exact ⟨t, rfl, h⟩

theorem add_entry_tableInv {pt : VPT} {vaddr : Nat} {pte : PTE} {l2Ok : Bool} {pt2 : VPT}
    (hinv : tableInv pt) (hp : pteInv pte)
    (h : vm_page_table_add_entry pt vaddr pte l2Ok = .ok pt2) : tableInv pt2 := by
  unfold vm_page_table_add_entry at h
  cases ht : pt.tables (L1_INDEX vaddr) with
  | none =>
      rw [ht] at h
      cases hl : l2Ok with
      | false => rw [hl] at h; exact absurd h (by simp)
      | true =>
          rw [hl] at h
          simp only [Bool.not_true, Bool.false_eq_true, if_false, Except.ok.injEq] at h
          subst h
          intro i j l2 p hi hj
          simp only [fupd] at hi
          by_cases hiL : i = L1_INDEX vaddr
          · rw [if_pos hiL] at hi
            rw [Option.some_inj] at hi
            subst hi
            simp only [fupd] at hj
            by_cases hjL : j = L2_INDEX vaddr
            · rw [if_pos hjL] at hj
              rw [Option.some_inj] at hj
              subst hj
              exact hp
            · rw [if_neg hjL] at hj
              exact absurd hj (by simp)
          · rw [if_neg hiL] at hi
            exact hinv i j l2 p hi hj
  | some t =>
      rw [ht] at h
      simp only [Except.ok.injEq] at h
      subst h
      intro i j l2 p hi hj
      simp only [fupd] at hi
      by_cases hiL : i = L1_INDEX vaddr
      · rw [if_pos hiL] at hi
        rw [Option.some_inj] at hi
        subst hi
        simp only [fupd] at hj
        by_cases hjL : j = L2_INDEX vaddr
        · rw [if_pos hjL] at hj
          rw [Option.some_inj] at hj
          subst hj
          exact hp
        · rw [if_neg hjL] at hj
          exact hinv (L1_INDEX vaddr) j t p ht hj
      · rw [if_neg hiL] at hi
        exact hinv i j l2 p hi hj

theorem cow_samePte_inv {a : AllocState} {p q : PTE}
    (h : pte_copy_on_write a p = .samePte q) : pteInv q := by
  unfold pte_copy_on_write at h
  by_cases h1 : p.ref_count = 1
  · rw [if_pos h1] at h
    simp only [CowResult.samePte.injEq] at h
    subst h
    exact ⟨by simp [h1], fun _ => by simp [h1]⟩
  · rw [if_neg h1] at h
    cases hn : new_pte a with
    | null => rw [hn] at h; exact absurd h (by simp)
    | panic => rw [hn] at h; exact absurd h (by simp)
    | ok n =>
      rw [hn] at h
      dsimp only at h
      by_cases h2 : p.ref_count - 1 = 0
      · rw [if_pos h2] at h; exact absurd h (by simp)
      · rw [if_neg h2] at h; exact absurd h (by simp)

theorem cow_newPte_inv {a : AllocState} {p q old : PTE} (hp : pteInv p)
    (h : pte_copy_on_write a p = .newPte q old) : pteInv q ∧ pteInv old := by
  unfold pte_copy_on_write at h
  by_cases h1 : p.ref_count = 1
  · rw [if_pos h1] at h; exact absurd h (by simp)
  · rw [if_neg h1] at h
    cases hn : new_pte a with
    | null => rw [hn] at h; exact absurd h (by simp)
    | panic => rw [hn] at h; exact absurd h (by simp)
    | ok n =>
      rw [hn] at h
      dsimp only at h
      by_cases h2 : p.ref_count - 1 = 0
      · rw [if_pos h2] at h; exact absurd h (by simp)
      · rw [if_neg h2] at h
        simp only [CowResult.newPte.injEq] at h
        obtain ⟨hq, hold⟩ := h
        have hn1 := (new_pte_ok hn).1
        constructor
        · subst hq
          exact ⟨by simp [hn1], fun _ => by simp [hn1]⟩
        · subst hold
          refine ⟨by simp; omega, fun hd => ?_⟩
          simp only at hd
          have := hp.2 hd
          exact absurd this h1

/-- Read-only data region [0x1000, 0x2000), readable but not writable. -/
def regionRO : Region :=
  { vbase := 0x1000, npages := 1, vtop := 0x2000, readable := true, writeable := false,
    executable := false }

/-- A PTE already installed for the page at 0x1000 (VALID set, DIRTY clear,
refcount 1). -/
def pteInstalled : PTE :=
  { frame := 0x6200, ref_count := 1, shared := false, content := 0, id := 5 }

/-- Page table holding pteInstalled at the slot of address 0x1000
(L1 index 0, L2 index 1). -/
def ptWithEntry : VPT :=
  ⟨fun i => if i = 0 then some ⟨fun j => if j = 1 then some pteInstalled else none⟩ else none⟩

/-- Address space with a single read-only region and a PTE installed for
0x1000, force_readwrite off. -/
def asRO : AS :=
  { regions := [regionRO], force_readwrite := false, page_table := ptWithEntry }

/-- The same address space with an empty page table. -/
def asROEmpty : AS :=
  { regions := [regionRO], force_readwrite := false, page_table := ⟨fun _ => none⟩ }

/-- Allocation environment where everything succeeds. -/
def faultAllocOk : FaultAlloc := { pteAlloc := allocOk7, l2Ok := true }

/-- C3 counterexample: a WRITE fault at 0x1000 in asRO — the region is not
writable, force_readwrite is off, and a PTE is installed for the address —
returns 0 (success) from vm_fault, not BAD_ACCESS: when a PTE is present,
vm_fault (vm.c lines 206-232) skips the region permission check for
READ/WRITE faults and loads the TLB directly. -/
theorem claim_C3_counterexample :
    regionRO.writeable = false ∧ asRO.force_readwrite = false ∧
    vm_page_table_lookup asRO.page_table 0x1000 = some pteInstalled ∧
    find_region asRO.regions 0x1000 = some regionRO ∧
    vm_fault asRO faultAllocOk .write 0x1000 = .ok asRO.page_table ∧
    vm_fault asRO faultAllocOk .write 0x1000 ≠ .err .EFAULT := by
  refine ⟨rfl, rfl, by decide, by decide, rfl, ?_⟩
  intro h
  rw [show vm_fault asRO faultAllocOk .write 0x1000 = .ok asRO.page_table from rfl] at h
  exact VMResult.noConfusion h

/-- C3 (amended): a WRITE fault on a non-writable region with
force_readwrite off returns BAD_ACCESS whenever no PTE is installed for the
fault address; when a PTE is already installed, vm_fault skips the region
permission check and the fault succeeds. -/
theorem claim_C3_write_fault (as : AS) (alloc : FaultAlloc) (addr : Nat) (r : Region)
    (hpte : vm_page_table_lookup as.page_table addr = none)
    (hr : find_region as.regions addr = some r)
    (hw : r.writeable = false)
    (hforce : as.force_readwrite = false) :
    vm_fault as alloc .write addr = .err .EFAULT := by
  unfold vm_fault
  rw [hpte, hr]
  dsimp only
  have h1 : ¬(r.readable = false ∧ FaultType.write = FaultType.read) := by
    rintro ⟨-, hh⟩
    exact FaultType.noConfusion hh
  rw [if_neg h1, if_pos ⟨hw, hforce, rfl⟩]

theorem claim_C3_write_fault_witness :
    vm_fault asROEmpty faultAllocOk .write 0x1000 = .err .EFAULT :=
  claim_C3_write_fault asROEmpty faultAllocOk 0x1000 regionRO rfl (by decide) rfl rfl

/-- Writable anonymous region [0x1000, 0x2000). -/
def regionRW : Region :=
  { vbase := 0x1000, npages := 1, vtop := 0x2000, readable := true, writeable := true,
    executable := false }

/-- Address space with one writable region and an empty page table. -/
def asRWEmpty : AS :=
  { regions := [regionRW], force_readwrite := false, page_table := ⟨fun _ => none⟩ }

/-- Allocation environment in which the frame allocator is exhausted:
alloc_kpages returns 0, so new_pte returns NULL. -/
def faultAllocNoFrame : FaultAlloc :=
  { pteAlloc := { kmallocOk := true, pagePaddr := none, lockOk := true, freshId := 0,
                  sharedBit := false }, l2Ok := true }

/-- C9: on the fresh-page path (no PTE installed, address inside a permitted
region) with the frame allocator exhausted, vm_fault crashes instead of
returning OUT_OF_MEMORY: vm.c line 260 never checks the NULL return of
new_pte and line 263 dereferences it. -/
theorem claim_C9_oom_crash :
    new_pte faultAllocNoFrame.pteAlloc = .null ∧
    vm_page_table_lookup asRWEmpty.page_table 0x1000 = none ∧
    find_region asRWEmpty.regions 0x1000 = some regionRW ∧
    vm_fault asRWEmpty faultAllocNoFrame .read 0x1000 = .crash ∧
    vm_fault asRWEmpty faultAllocNoFrame .read 0x1000 ≠ .err .ENOMEM := by
  refine ⟨by decide, rfl, by decide, rfl, ?_⟩
  intro h
  rw [show vm_fault asRWEmpty faultAllocNoFrame .read 0x1000 = .crash from rfl] at h
  exact VMResult.noConfusion h

/-- C1: the PTE invariant — refcount at least 1, and DIRTY set implies
refcount 1 — is established by new_pte and preserved by pte_inc_ref, by
pte_dec_ref (for the surviving PTE), by pte_copy_on_write (for the returned
PTE and for the decremented source PTE), and by vm_fault for every PTE
installed in the page table, on all success paths. -/
theorem claim_C1_pte_invariant :
    (∀ a p, new_pte a = .ok p → pteInv p) ∧
    (∀ p, pteInv p → pteInv (pte_inc_ref p)) ∧
    (∀ p q, pteInv p → pte_dec_ref p = .survives q → pteInv q) ∧
    (∀ a p q, pte_copy_on_write a p = .samePte q → pteInv q) ∧
    (∀ a p q old, pteInv p → pte_copy_on_write a p = .newPte q old → pteInv q ∧ pteInv old) ∧
    (∀ as alloc ft addr pt2, tableInv as.page_table → vm_fault as alloc ft addr = .ok pt2 →
      tableInv pt2) := by
  refine ⟨?_, ?_, ?_, ?_, ?_, ?_⟩
  · intro a p h
    obtain ⟨h1, _, _, h4⟩ := new_pte_ok h
    exact ⟨by omega, fun hd => absurd hd (by simp [h4])⟩
  · intro p hp
    refine ⟨by simp [pte_inc_ref], fun hd => ?_⟩
    rw [show (pte_inc_ref p).frame = p.frame &&& 0xfffffbff from rfl] at hd
    rw [pteDirty_clear] at hd
    exact Bool.noConfusion hd
  · intro p q hp h
    unfold pte_dec_ref at h
    by_cases h0 : p.ref_count = 0
    · rw [if_pos h0] at h; exact absurd h (by simp)
    · rw [if_neg h0] at h
      by_cases h1 : p.ref_count > 1
      · rw [if_pos h1] at h
        simp only [DecRefResult.survives.injEq] at h
        subst h
        refine ⟨by simp; omega, fun hd => ?_⟩
        simp only at hd
        have := hp.2 hd
        omega
      · rw [if_neg h1] at h; exact absurd h (by simp)
  · intro a p q h
    exact cow_samePte_inv h
  · intro a p q old hp h
    exact cow_newPte_inv hp h
  · intro as alloc ft addr pt2 hinv h
    unfold vm_fault at h
    cases hlk : vm_page_table_lookup as.page_table addr with
    | some pte =>
        rw [hlk] at h
        obtain ⟨l2f, hl2f, hef⟩ := lookup_some hlk
        have hpte : pteInv pte := hinv _ _ _ _ hl2f hef
        cases ft with
        | read =>
            simp only [VMResult.ok.injEq] at h
            subst h
            exact hinv
        | write =>
            simp only [VMResult.ok.injEq] at h
            subst h
            exact hinv
        | readonly =>
            cases hfr : find_region as.regions addr with
            | none => rw [hfr] at h; exact absurd h (by intro hh; exact VMResult.noConfusion hh)
            | some r =>
                rw [hfr] at h
                dsimp only at h
                by_cases hw : r.writeable = false
                · rw [if_pos hw] at h; exact absurd h (by intro hh; exact VMResult.noConfusion hh)
                · rw [if_neg hw] at h
                  cases hcow : pte_copy_on_write alloc.pteAlloc pte with
                  | null o => rw [hcow] at h; exact absurd h (by intro hh; exact VMResult.noConfusion hh)
                  | panic => rw [hcow] at h; exact absurd h (by intro hh; exact VMResult.noConfusion hh)
                  | samePte q =>
                      rw [hcow] at h
                      dsimp only at h
                      by_cases hq1 : q.ref_count ≠ 1
                      · rw [if_pos hq1] at h; exact absurd h (by intro hh; exact VMResult.noConfusion hh)
                      · rw [if_neg hq1] at h
                        cases hadd : vm_page_table_add_entry as.page_table addr q alloc.l2Ok with
                        | error e => rw [hadd] at h; exact absurd h (by intro hh; exact VMResult.noConfusion hh)
                        | ok ptn =>
                            rw [hadd] at h
                            simp only [VMResult.ok.injEq] at h
                            subst h
                            exact add_entry_tableInv hinv (cow_samePte_inv hcow) hadd
                  | newPte q old =>
                      rw [hcow] at h
                      dsimp only at h
                      by_cases hq1 : q.ref_count ≠ 1
                      · rw [if_pos hq1] at h; exact absurd h (by intro hh; exact VMResult.noConfusion hh)
                      · rw [if_neg hq1] at h
                        cases hadd : vm_page_table_add_entry as.page_table addr q alloc.l2Ok with
                        | error e => rw [hadd] at h; exact absurd h (by intro hh; exact VMResult.noConfusion hh)
                        | ok ptn =>
                            rw [hadd] at h
                            simp only [VMResult.ok.injEq] at h
                            subst h
                            exact add_entry_tableInv hinv ((cow_newPte_inv hpte hcow).1) hadd
    | none =>
        rw [hlk] at h
        cases hfr : find_region as.regions addr with
        | none => rw [hfr] at h; exact absurd h (by intro hh; exact VMResult.noConfusion hh)
        | some r =>
            rw [hfr] at h
            dsimp only at h
            by_cases hc1 : r.readable = false ∧ ft = .read
            · rw [if_pos hc1] at h; exact absurd h (by intro hh; exact VMResult.noConfusion hh)
            · rw [if_neg hc1] at h
              by_cases hc2 : r.writeable = false ∧ as.force_readwrite = false ∧ ft = .write
              · rw [if_pos hc2] at h; exact absurd h (by intro hh; exact VMResult.noConfusion hh)
              · rw [if_neg hc2] at h
                cases hn : new_pte alloc.pteAlloc with
                | null => rw [hn] at h; exact absurd h (by intro hh; exact VMResult.noConfusion hh)
                | panic => rw [hn] at h; exact absurd h (by intro hh; exact VMResult.noConfusion hh)
                | ok n =>
                    rw [hn] at h
                    dsimp only at h
                    cases hadd : vm_page_table_add_entry as.page_table addr
                        { n with frame := (n.frame ||| TLBLO_VALID) |||
                          (if r.writeable then TLBLO_DIRTY else 0) } alloc.l2Ok with
                    | error e => rw [hadd] at h; exact absurd h (by intro hh; exact VMResult.noConfusion hh)
                    | ok ptn =>
                        rw [hadd] at h
                        simp only [VMResult.ok.injEq] at h
                        subst h
                        refine add_entry_tableInv hinv ?_ hadd
                        have hn1 := (new_pte_ok hn).1
                        exact ⟨by simp [hn1], fun _ => by simp [hn1]⟩

theorem claim_C1_witness : pteInv (pte_inc_ref pteTwoRef) :=
  claim_C1_pte_invariant.2.1 pteTwoRef (by decide)

/-- struct l2_page_table as maintained by page_table.c: 512 optional PTE
slots plus the live-entry counter count. -/
structure L2T where
  entries : Nat → Option PTE
  count : Nat

theorem pte_copy_ok_facts {a : AllocState} {p c o : PTE}
    (h : pte_copy a p = .ok (c, o)) :
    c.ref_count = 1 ∧ c.content = p.content ∧ c.id = a.freshId ∧ o = p := by
  unfold pte_copy at h
  cases hn : new_pte a with
  | null => rw [hn] at h; exact absurd h (by simp)
  | panic => rw [hn] at h; exact absurd h (by simp)
  | ok n =>
      rw [hn] at h
      simp only [PtrResult.ok.injEq, Prod.mk.injEq] at h
      obtain ⟨hc, ho⟩ := h
      obtain ⟨h1, h2, h3, _⟩ := new_pte_ok hn
      subst hc
      exact ⟨h1, rfl, h3, ho.symm⟩

/-- Loop body of l2_table_copy, page_table.c lines 225-249, iterating i over
the 512 slots.  oldE is the current state of the source entries (mutated
through pte_inc_ref on shared entries), newE the child entries being built,
cnt the child live count, k the index into the allocator stream consumed by
pte_copy.  A NULL (or panicking) pte_copy aborts the whole copy (the C code
destroys the partial child table and returns NULL). -/
def l2_copy_go (alloc : Nat → AllocState) (i : Nat) (oldE newE : Nat → Option PTE)
    (cnt k : Nat) : Nat → Option ((Nat → Option PTE) × (Nat → Option PTE) × Nat × Nat)
  | 0 => some (oldE, newE, cnt, k)
  | fuel + 1 =>
    match oldE i with
    | none => l2_copy_go alloc (i + 1) oldE newE cnt k fuel
    | some p =>
      if p.shared then
        l2_copy_go alloc (i + 1) (fupd oldE i (some (pte_inc_ref p)))
          (fupd newE i (some (pte_inc_ref p))) (cnt + 1) k fuel
      else
        match pte_copy (alloc k) p with
        | .ok (c, _) => l2_copy_go alloc (i + 1) oldE (fupd newE i (some c)) (cnt + 1) (k + 1) fuel
        | .null => none
        | .panic => none

/-- l2_table_copy, page_table.c lines 215-253: allocate an empty child
table (initOk models the kmalloc in l2_table_init), run the slot loop,
KASSERT(new->count == old->count).  The result is the final state of the
source entries, the child table, and the number of fresh allocations
consumed. -/
def l2_table_copy (alloc : Nat → AllocState) (initOk : Bool) (old : L2T) :
    Option (L2T × L2T × Nat) :=
  if !initOk then none
  else
    match l2_copy_go alloc 0 old.entries (fun _ => none) 0 0 512 with
    | none => none
    | some (oE, nE, c, k) =>
        if c = old.count then some (⟨oE, old.count⟩, ⟨nE, c⟩, k) else none

theorem l2_copy_go_spec (alloc : Nat → AllocState) :
    ∀ fuel i oldE newE cnt k oE nE c2 k2,
      l2_copy_go alloc i oldE newE cnt k fuel = some (oE, nE, c2, k2) →
      (∀ j, j < i ∨ i + fuel ≤ j → oE j = oldE j ∧ nE j = newE j) ∧
      (∀ j, i ≤ j → j < i + fuel → ∀ p, oldE j = some p →
        (p.shared = true → oE j = some (pte_inc_ref p) ∧ nE j = some (pte_inc_ref p)) ∧
        (p.shared = false → oE j = some p ∧
          ∃ m c, pte_copy (alloc m) p = .ok (c, p) ∧ nE j = some c)) := by
  intro fuel
  induction fuel with
  | zero =>
      intro i oldE newE cnt k oE nE c2 k2 h
      unfold l2_copy_go at h
      simp only [Option.some.injEq, Prod.mk.injEq] at h
      obtain ⟨h1, h2, -, -⟩ := h
      subst h1; subst h2
      refine ⟨fun j _ => ⟨rfl, rfl⟩, fun j hj1 hj2 => ?_⟩
      omega
  | succ fuel ih =>
      intro i oldE newE cnt k oE nE c2 k2 h
      unfold l2_copy_go at h
      cases hoe : oldE i with
      | none =>
          rw [hoe] at h
          obtain ⟨hA, hB⟩ := ih (i + 1) oldE newE cnt k oE nE c2 k2 h
          refine ⟨fun j hj => hA j (by omega), fun j hj1 hj2 p hp => ?_⟩
          by_cases hji : j = i
          · subst hji
            rw [hoe] at hp
            exact absurd hp (by simp)
          · exact hB j (by omega) (by omega) p hp
      | some p0 =>
          rw [hoe] at h
          dsimp only at h
          by_cases hsh : p0.shared
          · rw [if_pos hsh] at h
            obtain ⟨hA, hB⟩ := ih (i + 1) (fupd oldE i (some (pte_inc_ref p0)))
              (fupd newE i (some (pte_inc_ref p0))) (cnt + 1) k oE nE c2 k2 h
            constructor
            · intro j hj
              have hji : j ≠ i := by omega
              have := hA j (by omega)
              rwa [fupd, if_neg hji, fupd, if_neg hji] at this
            · intro j hj1 hj2 p hp
              by_cases hji : j = i
              · subst hji
                rw [hoe] at hp
                rw [Option.some_inj] at hp
                subst hp
                have := hA j (by omega)
                rw [fupd, if_pos rfl, fupd, if_pos rfl] at this
                refine ⟨fun _ => this, fun hf => ?_⟩
                rw [hsh] at hf
                exact Bool.noConfusion hf
              · have hp2 : fupd oldE i (some (pte_inc_ref p0)) j = some p := by
                  rw [fupd, if_neg hji]; exact hp
                exact hB j (by omega) (by omega) p hp2
          · rw [if_neg hsh] at h
            cases hcp : pte_copy (alloc k) p0 with
            | null => rw [hcp] at h; exact absurd h (by simp)
            | panic => rw [hcp] at h; exact absurd h (by simp)
            | ok pr =>
                rw [hcp] at h
                obtain ⟨c, o⟩ := pr
                dsimp only at h
                obtain ⟨hA, hB⟩ := ih (i + 1) oldE (fupd newE i (some c)) (cnt + 1) (k + 1)
                  oE nE c2 k2 h
                have ho : o = p0 := (pte_copy_ok_facts hcp).2.2.2
                subst ho
                constructor
                · intro j hj
                  have hji : j ≠ i := by omega
                  have := hA j (by omega)
                  rwa [fupd, if_neg hji] at this
                · intro j hj1 hj2 p hp
                  by_cases hji : j = i
                  · subst hji
                    rw [hoe] at hp
                    rw [Option.some_inj] at hp
                    subst hp
                    obtain ⟨hAo, hAn⟩ := hA j (by omega)
                    rw [fupd, if_pos rfl] at hAn
                    refine ⟨fun ht => ?_, fun _ => ?_⟩
                    · rw [ht] at hsh
                      exact absurd rfl hsh
                    · exact ⟨hAo.trans hoe, k, c, hcp, hAn⟩
                  · exact hB j (by omega) (by omega) p hp

/-- C2: in the page-table clone performed for as_copy (l2_table_copy,
page_table.c lines 215-253), for each occupied leaf slot of the source
table: if the PTE is marked shared, the child slot holds the same PTE
reference (same identity, now with refcount incremented and the DIRTY bit
cleared by pte_inc_ref) and the source slot sees the same updated PTE; if
the shared flag is clear, the source slot is untouched and the child slot
holds an independent copy produced by pte_copy (refcount 1, equal page
contents). -/
theorem claim_C2_l2_table_copy (alloc : Nat → AllocState) (initOk : Bool)
    (old oldT newT : L2T) (kfin : Nat) (i : Nat) (p : PTE)
    (h : l2_table_copy alloc initOk old = some (oldT, newT, kfin))
    (hi : i < 512) (hp : old.entries i = some p) :
    (p.shared = true → oldT.entries i = some (pte_inc_ref p) ∧
      newT.entries i = some (pte_inc_ref p) ∧
      (pte_inc_ref p).ref_count = p.ref_count + 1 ∧ (pte_inc_ref p).id = p.id ∧
      pteDirty (pte_inc_ref p).frame = false) ∧
    (p.shared = false → oldT.entries i = some p ∧
      ∃ m c, pte_copy (alloc m) p = .ok (c, p) ∧ newT.entries i = some c ∧
        c.ref_count = 1 ∧ c.content = p.content) := by
  unfold l2_table_copy at h
  cases hio : initOk with
  | false => rw [hio] at h; exact absurd h (by simp)
  | true =>
      rw [hio] at h
      simp only [Bool.not_true, Bool.false_eq_true, if_false] at h
      cases hgo : l2_copy_go alloc 0 old.entries (fun _ => none) 0 0 512 with
      | none => rw [hgo] at h; exact absurd h (by simp)
      | some res =>
          rw [hgo] at h
          obtain ⟨oE, nE, c, k⟩ := res
          dsimp only at h
          by_cases hcnt : c = old.count
          · rw [if_pos hcnt] at h
            simp only [Option.some.injEq, Prod.mk.injEq] at h
            obtain ⟨hOT, hNT, -⟩ := h
            obtain ⟨-, hB⟩ := l2_copy_go_spec alloc 512 0 old.entries (fun _ => none) 0 0
              oE nE c k hgo
            have hslot := hB i (by omega) (by omega) p hp
            constructor
            · intro hsh
              obtain ⟨h1, h2⟩ := hslot.1 hsh
              rw [← hOT, ← hNT]
              refine ⟨h1, h2, rfl, rfl, ?_⟩
              rw [show (pte_inc_ref p).frame = p.frame &&& 0xfffffbff from rfl]
              exact pteDirty_clear p.frame
            · intro hsh
              obtain ⟨h1, m, cc, hcp, h2⟩ := hslot.2 hsh
              obtain ⟨hr1, hr2, -, -⟩ := pte_copy_ok_facts hcp
              rw [← hOT, ← hNT]
              exact ⟨h1, m, cc, hcp, h2, hr1, hr2⟩
          · rw [if_neg hcnt] at h
            exact absurd h (by simp)

/-- A shared PTE with a single reference, sitting in slot 0 of a source L2
table. -/
def pteShared0 : PTE :=
  { frame := 0x5200, ref_count := 1, shared := true, content := 4, id := 11 }

/-- Source L2 table with pteShared0 at slot 0 and live count 1. -/
def l2Shared : L2T := ⟨fun i => if i = 0 then some pteShared0 else none, 1⟩

/-- Allocator stream for the page-table copy witness. -/
def allocStream : Nat → AllocState := fun _ => allocOk7

/-- Source-table state after the copy of l2Shared. -/
def l2SharedAfter : L2T :=
  ⟨fupd (fun i => if i = 0 then some pteShared0 else none) 0 (some (pte_inc_ref pteShared0)), 1⟩

/-- Child table produced by copying l2Shared. -/
def l2SharedChild : L2T :=
  ⟨fupd (fun _ => none) 0 (some (pte_inc_ref pteShared0)), 1⟩

set_option maxRecDepth 40000 in
theorem claim_C2_witness :
    l2SharedAfter.entries 0 = some (pte_inc_ref pteShared0) ∧
    l2SharedChild.entries 0 = some (pte_inc_ref pteShared0) ∧
    (pte_inc_ref pteShared0).ref_count = pteShared0.ref_count + 1 ∧
    (pte_inc_ref pteShared0).id = pteShared0.id ∧
    pteDirty (pte_inc_ref pteShared0).frame = false :=
  (claim_C2_l2_table_copy allocStream true l2Shared l2SharedAfter l2SharedChild 0 0 pteShared0
    rfl (by omega) rfl).1 rfl

/-- Walk of as_define_region, addrspace.c lines 584-594: the loop runs
while current->next != NULL and checks MAX(vbase,vbase) < MIN(vtop,vtop)
overlap against current, so the new region is checked against every
existing region except the last, then appended to the tail. -/
def define_region_walk (newR : Region) : List Region → Except Errno (List Region)
  | [] => .ok [newR]
  | [last] => .ok [last, newR]
  | c :: rest =>
      if max c.vbase newR.vbase < min c.vtop newR.vtop then .error .EINVAL
      else
        match define_region_walk newR rest with
        | .error e => .error e
        | .ok l => .ok (c :: l)

/-- as_define_region, addrspace.c lines 547-598: memsize += vaddr &
~PAGE_FRAME and vaddr &= PAGE_FRAME (written as mod/minus-mod arithmetic of
the 32-bit mask), npages rounds the length up to pages, the region carries
vtop = vbase + npages * PAGE_SIZE and the flag comparisons readable ==
PF_R, writeable == PF_W, executable == PF_X; an empty list takes the new
region directly, otherwise the tail walk appends it.  mallocOk models the
kmalloc of the region node. -/
def as_define_region (regions : List Region) (vaddr memsize : Nat)
    (readable writeable executable : Nat) (mallocOk : Bool) : Except Errno (List Region) :=
  let memsize1 := memsize + vaddr % PAGE_SIZE
  let vaddr1 := vaddr - vaddr % PAGE_SIZE
  let npages := (memsize1 + PAGE_SIZE - 1) / PAGE_SIZE
  if !mallocOk then .error .ENOMEM
  else
    let newR : Region := ⟨vaddr1, npages, vaddr1 + npages * PAGE_SIZE, readable == PF_R, writeable == PF_W, executable == PF_X⟩
    match regions with
    | [] => .ok [newR]
    | _ :: _ => define_region_walk newR regions

/-- First region created by the spec scenario: define_region(as,
0x10000000, 0x2000, R, W, 0). -/
def c6R1 : Region :=
  { vbase := 0x10000000, npages := 2, vtop := 0x10002000, readable := true, writeable := true,
    executable := false }

/-- Second, overlapping region of the scenario: define_region(as,
0x10001000, 0x1000, R, 0, 0). -/
def c6R2 : Region :=
  { vbase := 0x10001000, npages := 1, vtop := 0x10002000, readable := true, writeable := false,
    executable := false }

/-- C6: the spec scenario define_region(as, 0x10000000, 0x2000, R, W, 0)
followed by define_region(as, 0x10001000, 0x1000, R, 0, 0) is accepted by
the code: the overlap walk of as_define_region never checks the last region
of the list, so the second call returns 0 and appends a region overlapping
the first instead of rejecting with INVALID_ARG. -/
theorem claim_C6_overlap_not_rejected :
    as_define_region [] 0x10000000 0x2000 PF_R PF_W 0 true = .ok [c6R1] ∧
    as_define_region [c6R1] 0x10001000 0x1000 PF_R 0 0 true = .ok [c6R1, c6R2] ∧
    max c6R1.vbase c6R2.vbase < min c6R1.vtop c6R2.vtop ∧
    as_define_region [c6R1] 0x10001000 0x1000 PF_R 0 0 true ≠ .error .EINVAL := by
  refine ⟨rfl, rfl, by decide, ?_⟩
  intro h
  rw [show as_define_region [c6R1] 0x10001000 0x1000 PF_R 0 0 true = .ok [c6R1, c6R2] from rfl] at h
  exact Except.noConfusion h

/-- free_region, addrspace.c lines 399-405: recursively free the next chain
then the node; the argument itself is never NULL-checked, so the empty list
(the NULL pointer passed by as_destroy when no region was defined) is a
NULL dereference, modelled as false; true means the walk completes. -/
def free_region : List Region → Bool
  | [] => false
  | [_] => true
  | _ :: rest => free_region rest

/-- as_create, addrspace.c lines 418-438: regions = NULL, a fresh empty
page table, force_readwrite = 0 (mallocOk models the kmalloc of the struct;
the unchecked page_table_init result is not the crash source examined
here). -/
def as_create (mallocOk : Bool) : Option AS :=
  if !mallocOk then none
  else some { regions := [], force_readwrite := false, page_table := ⟨fun _ => none⟩ }

/-- as_destroy, addrspace.c lines 486-500: free_region(as->regions), then
page_table_destroy (which iterates the slots of any table and completes),
then kfree.  It completes iff free_region does. -/
def as_destroy (as : AS) : Bool := free_region as.regions

/-- The address space returned by a successful as_create. -/
def asFresh : AS := { regions := [], force_readwrite := false, page_table := ⟨fun _ => none⟩ }

/-- C10: as_destroy on the empty address space produced by as_create
dereferences the NULL region list inside free_region (addrspace.c line 401
reads region->next without a NULL check) and crashes; with at least one
region it completes. -/
theorem claim_C10_destroy_empty_crashes :
    as_create true = some asFresh ∧
    asFresh.regions = [] ∧
    as_destroy asFresh = false ∧
    free_region [regionRO] = true := by
  exact ⟨rfl, rfl, rfl, rfl⟩

/-- The topmost-region scan of as_define_stack, addrspace.c lines 640-648:
keep the region with the strictly larger vtop. -/
def topmostOf (r0 : Region) (rest : List Region) : Region :=
  rest.foldl (fun t c => if c.vtop > t.vtop then c else t) r0

/-- The heap region that as_define_stack appends at address v: zero-length
(memsize 0 rounds to 0 pages), readable and writable. -/
def heapRegionAt (v : Nat) : Region := ⟨v, 0, v, true, true, false⟩

/-- The stack region that as_define_stack appends: YANG_VM_STACKPAGES pages
ending at USERSTACK, readable and writable. -/
def stackRegion : Region :=
  ⟨USERSTACK - YANG_VM_STACKPAGES * PAGE_SIZE, YANG_VM_STACKPAGES, USERSTACK, true, true, false⟩

/-- as_define_stack, addrspace.c lines 628-680: stackptr = USERSTACK; scan
for the region with the largest vtop (the empty list dereferences the NULL
topmost pointer: none); append a heap region of memsize 0 at that vtop via
as_define_region, ignoring its return value; take the last region of the
list as the heap and KASSERT its vbase and npages == 0; append the stack
region of YANG_VM_STACKPAGES pages ending at USERSTACK the same way and
KASSERT it; return the regions, the heap and stack regions, and the stack
pointer.  A failed KASSERT is none.  m1 and m2 model the two region
kmallocs. -/
def as_define_stack (regions : List Region) (m1 m2 : Bool) :
    Option (List Region × Region × Region × Nat) :=
  match regions with
  | [] => none
  | r0 :: rest =>
    let heap_base := (topmostOf r0 rest).vtop
    let regions1 := match as_define_region (r0 :: rest) heap_base 0 PF_R PF_W 0 m1 with
      | .ok l => l
      | .error _ => r0 :: rest
    match regions1.getLast? with
    | none => none
    | some heap =>
      if heap.vbase = heap_base ∧ heap.npages = 0 then
        let regions2 := match as_define_region regions1
            (USERSTACK - YANG_VM_STACKPAGES * PAGE_SIZE) (YANG_VM_STACKPAGES * PAGE_SIZE)
            PF_R PF_W 0 m2 with
          | .ok l => l
          | .error _ => regions1
        match regions2.getLast? with
        | none => none
        | some stack =>
          if stack.vbase = USERSTACK - YANG_VM_STACKPAGES * PAGE_SIZE ∧
             stack.npages = YANG_VM_STACKPAGES then
            some (regions2, heap, stack, USERSTACK)
          else none
      else none

theorem topmostOf_mem (r0 : Region) (rest : List Region) : topmostOf r0 rest ∈ r0 :: rest := by
  unfold topmostOf
  induction rest generalizing r0 with
  | nil => simp
  | cons c cs ih =>
      simp only [List.foldl_cons]
      by_cases hc : c.vtop > r0.vtop
      · rw [if_pos hc]
        rcases List.mem_cons.mp (ih c) with h1 | h1
        · rw [h1]
          exact List.mem_cons_of_mem _ (List.mem_cons_self c cs)
        · exact List.mem_cons_of_mem _ (List.mem_cons_of_mem _ h1)
      · rw [if_neg hc]
        rcases List.mem_cons.mp (ih r0) with h1 | h1
        · rw [h1]
          exact List.mem_cons_self r0 (c :: cs)
        · exact List.mem_cons_of_mem _ (List.mem_cons_of_mem _ h1)

theorem define_region_walk_ok (newR : Region) (l : List Region)
    (h : ∀ c ∈ l, min c.vtop newR.vtop ≤ max c.vbase newR.vbase) :
    define_region_walk newR l = .ok (l ++ [newR]) := by
  induction l with
  | nil => rfl
  | cons c cs ih =>
      cases cs with
      | nil => rfl
      | cons d ds =>
          have hov : ¬(max c.vbase newR.vbase < min c.vtop newR.vtop) := by
            have := h c (by simp)
            omega
          unfold define_region_walk
          rw [if_neg hov]
          rw [ih (fun x hx => h x (List.mem_cons_of_mem c hx))]
          rfl

theorem getLast?_append_single {α : Type} (l : List α) (x : α) :
    (l ++ [x]).getLast? = some x :=
  List.getLast?_concat l


theorem define_heap_region (l : List Region) (v : Nat) (hv : v % PAGE_SIZE = 0) :
    as_define_region l v 0 PF_R PF_W 0 true = .ok (l ++ [heapRegionAt v]) := by
  have h1 : v - v % PAGE_SIZE = v := by omega
  have h2 : (0 + v % PAGE_SIZE + PAGE_SIZE - 1) / PAGE_SIZE = 0 := by
    rw [hv]
    decide
  unfold as_define_region
  simp only [Bool.not_true, Bool.false_eq_true, if_false, h1, h2, Nat.zero_mul, Nat.add_zero]
  have hR : (⟨v, 0, v, PF_R == PF_R, PF_W == PF_W, (0 : Nat) == PF_X⟩ : Region) = heapRegionAt v := rfl
  rw [hR]
  cases l with
  | nil => rfl
  | cons a as =>
      exact define_region_walk_ok (heapRegionAt v) (a :: as)
        (fun c _ => le_trans (Nat.min_le_right _ _) (Nat.le_max_right _ _))

theorem define_stack_region (l : List Region)
    (hbelow : ∀ c ∈ l, c.vtop ≤ USERSTACK - YANG_VM_STACKPAGES * PAGE_SIZE) :
    as_define_region l (USERSTACK - YANG_VM_STACKPAGES * PAGE_SIZE)
      (YANG_VM_STACKPAGES * PAGE_SIZE) PF_R PF_W 0 true = .ok (l ++ [stackRegion]) := by
  unfold as_define_region
  simp only [Bool.not_true, Bool.false_eq_true, if_false]
  have hR : (⟨USERSTACK - YANG_VM_STACKPAGES * PAGE_SIZE -
      (USERSTACK - YANG_VM_STACKPAGES * PAGE_SIZE) % PAGE_SIZE,
      (YANG_VM_STACKPAGES * PAGE_SIZE +
        (USERSTACK - YANG_VM_STACKPAGES * PAGE_SIZE) % PAGE_SIZE + PAGE_SIZE - 1) / PAGE_SIZE,
      USERSTACK - YANG_VM_STACKPAGES * PAGE_SIZE -
        (USERSTACK - YANG_VM_STACKPAGES * PAGE_SIZE) % PAGE_SIZE +
        (YANG_VM_STACKPAGES * PAGE_SIZE +
          (USERSTACK - YANG_VM_STACKPAGES * PAGE_SIZE) % PAGE_SIZE + PAGE_SIZE - 1) / PAGE_SIZE *
          PAGE_SIZE,
      PF_R == PF_R, PF_W == PF_W, (0 : Nat) == PF_X⟩ : Region) = stackRegion := by decide
  rw [hR]
  cases l with
  | nil => rfl
  | cons a as =>
      refine define_region_walk_ok stackRegion (a :: as) (fun c hc => ?_)
      have hc2 := hbelow c hc
      have hmin : min c.vtop stackRegion.vtop ≤ c.vtop := Nat.min_le_left _ _
      have hmax : stackRegion.vbase ≤ max c.vbase stackRegion.vbase := Nat.le_max_right _ _
      have hsb : stackRegion.vbase = USERSTACK - YANG_VM_STACKPAGES * PAGE_SIZE := rfl
      omega

/-- C8 (amended): for a nonempty region list whose regions have page-aligned
tops lying at or below the stack base, as_define_stack creates a stack
region of YANG_VM_STACKPAGES pages ending at USERSTACK with read/write
permissions and a zero-page heap region (vbase = vtop = the vtop of the
highest existing region, npages = 0 — not one page), appends both to the
region list, and returns USERSTACK as the initial stack pointer. -/
theorem claim_C8_as_define_stack (r0 : Region) (rest : List Region)
    (hal : ∀ r ∈ r0 :: rest, r.vtop % PAGE_SIZE = 0)
    (hbelow : ∀ r ∈ r0 :: rest, r.vtop ≤ USERSTACK - YANG_VM_STACKPAGES * PAGE_SIZE) :
    as_define_stack (r0 :: rest) true true =
      some ((r0 :: rest) ++ [heapRegionAt (topmostOf r0 rest).vtop] ++ [stackRegion],
        heapRegionAt (topmostOf r0 rest).vtop, stackRegion, USERSTACK) := by
  have hT := topmostOf_mem r0 rest
  have hTal := hal _ hT
  have hTbe := hbelow _ hT
  have h1 := define_heap_region (r0 :: rest) (topmostOf r0 rest).vtop hTal
  have h2 : ∀ c ∈ (r0 :: rest) ++ [heapRegionAt (topmostOf r0 rest).vtop],
      c.vtop ≤ USERSTACK - YANG_VM_STACKPAGES * PAGE_SIZE := by
    intro c hc
    rcases List.mem_append.mp hc with hcl | hcr
    · exact hbelow c hcl
    · have : c = heapRegionAt (topmostOf r0 rest).vtop := by simpa using hcr
      rw [this]
      exact hTbe
  have h3 := define_stack_region ((r0 :: rest) ++ [heapRegionAt (topmostOf r0 rest).vtop]) h2
  unfold as_define_stack
  dsimp only
  rw [h1]
  dsimp only
  rw [getLast?_append_single]
  dsimp only
  have hk1 : (heapRegionAt (topmostOf r0 rest).vtop).vbase = (topmostOf r0 rest).vtop ∧
      (heapRegionAt (topmostOf r0 rest).vtop).npages = 0 := ⟨rfl, rfl⟩
  rw [if_pos hk1]
  rw [h3]
  dsimp only
  rw [getLast?_append_single]
  dsimp only
  have hk2 : stackRegion.vbase = USERSTACK - YANG_VM_STACKPAGES * PAGE_SIZE ∧
      stackRegion.npages = YANG_VM_STACKPAGES := ⟨rfl, rfl⟩
  rw [if_pos hk2]

/-- A single loaded region below the stack, for the define_stack scenario. -/
def regionBelow : Region :=
  ⟨0x400000, 1, 0x401000, true, false, false⟩

/-- C8 counterexample: on an address space holding one region
[0x400000, 0x401000), as_define_stack creates the heap region with
npages = 0 and vtop = vbase = 0x401000 — a zero-page region, not the
one-page heap region the claim describes (the code passes memsize 0 to
as_define_region and itself asserts npages == 0). -/
theorem claim_C8_counterexample :
    as_define_stack [regionBelow] true true =
      some ([regionBelow, heapRegionAt 0x401000, stackRegion],
        heapRegionAt 0x401000, stackRegion, USERSTACK) ∧
    (heapRegionAt 0x401000).npages = 0 ∧ (heapRegionAt 0x401000).npages ≠ 1 ∧
    (heapRegionAt 0x401000).vtop = (heapRegionAt 0x401000).vbase := by
  refine ⟨by decide, rfl, by decide, rfl⟩

theorem claim_C8_witness :
    as_define_stack [regionBelow] true true =
      some ([regionBelow] ++ [heapRegionAt (topmostOf regionBelow []).vtop] ++ [stackRegion],
        heapRegionAt (topmostOf regionBelow []).vtop, stackRegion, USERSTACK) :=
  claim_C8_as_define_stack regionBelow []
    (by intro r hr; simp at hr; rw [hr]; decide)
    (by intro r hr; simp at hr; rw [hr]; decide)

/-- Heap and stack bounds consumed by sys_sbrk: the heap region located via
find_region(as, as->heap_start) and the stack region located via
find_region(as, as->stack_start), mem_syscalls.c lines 41-44. -/
structure SbrkState where
  heapVbase : Nat
  heapVtop : Nat
  heapNpages : Nat
  stackVbase : Nat
deriving Repr, DecidableEq

/-- Outcome of sys_sbrk: the old break and the updated heap bounds, an
error code, or a KASSERT failure. -/
inductive SbrkResult where
  | ok (oldBrk : Nat) (st : SbrkState)
  | err (e : Errno)
  | panic
deriving Repr, DecidableEq

/-- Value of a C integer expression as a uint32 (vaddr_t arithmetic wraps
mod 2^32). -/
def wrap32 (x : Int) : Nat := (x % (U32 : Int)).toNat

/-- (x + PAGE_SIZE - 1) & ~(PAGE_SIZE - 1) evaluated in uint32,
mem_syscalls.c line 60: on a value below 2^32 the mask ~(PAGE_SIZE-1) =
0xfffff000 clears the low 12 bits, i.e. subtracts the remainder mod
PAGE_SIZE. -/
def sbrk_round_up (x : Nat) : Nat :=
  (x + PAGE_SIZE - 1) % U32 - ((x + PAGE_SIZE - 1) % U32) % PAGE_SIZE

/-- x & ~(PAGE_SIZE - 1) evaluated in uint32, mem_syscalls.c line 63. -/
def sbrk_round_down (x : Nat) : Nat := x % U32 - (x % U32) % PAGE_SIZE

/-- sys_sbrk, mem_syscalls.c lines 27-125 (OPT_SBRK on): amount 0 returns
the current break; otherwise KASSERT the break is page aligned, compute
new_heap_end = old + amount in uint32, KASSERT it moved, round up for
growth and down for shrink, KASSERT the uint32 difference is page-sized,
reject with ENOMEM when the new end falls below the heap base or reaches
the stack base, then commit vtop and npages and return the old break. -/
def sys_sbrk (amount : Int) (st : SbrkState) : SbrkResult :=
  if amount = 0 then .ok st.heapVtop st
  else
    if st.heapVtop % PAGE_SIZE ≠ 0 then .panic
    else
      if wrap32 ((st.heapVtop : Int) + amount) = st.heapVtop then .panic
      else
        if ((if amount > 0 then sbrk_round_up (wrap32 ((st.heapVtop : Int) + amount))
             else sbrk_round_down (wrap32 ((st.heapVtop : Int) + amount)))
            + U32 - st.heapVtop % U32) % U32 % PAGE_SIZE ≠ 0 then .panic
        else
          if (if amount > 0 then sbrk_round_up (wrap32 ((st.heapVtop : Int) + amount))
              else sbrk_round_down (wrap32 ((st.heapVtop : Int) + amount))) < st.heapVbase then
            .err .ENOMEM
          else
            if st.stackVbase ≤ (if amount > 0 then sbrk_round_up (wrap32 ((st.heapVtop : Int) + amount))
                else sbrk_round_down (wrap32 ((st.heapVtop : Int) + amount))) then
              .err .ENOMEM
            else
              if ((if amount > 0 then sbrk_round_up (wrap32 ((st.heapVtop : Int) + amount))
                   else sbrk_round_down (wrap32 ((st.heapVtop : Int) + amount))) - st.heapVbase)
                  / PAGE_SIZE * PAGE_SIZE ≠
                  (if amount > 0 then sbrk_round_up (wrap32 ((st.heapVtop : Int) + amount))
                   else sbrk_round_down (wrap32 ((st.heapVtop : Int) + amount))) - st.heapVbase then
                .panic
              else
                .ok st.heapVtop
                  { st with
                    heapVtop := (if amount > 0 then
                        sbrk_round_up (wrap32 ((st.heapVtop : Int) + amount))
                      else sbrk_round_down (wrap32 ((st.heapVtop : Int) + amount))),
                    heapNpages := ((if amount > 0 then
                        sbrk_round_up (wrap32 ((st.heapVtop : Int) + amount))
                      else sbrk_round_down (wrap32 ((st.heapVtop : Int) + amount)))
                      - st.heapVbase) / PAGE_SIZE }

theorem sys_sbrk_ok_vtop {amount : Int} {st st1 : SbrkState} {r : Nat}
    (h : sys_sbrk amount st = .ok r st1) (hamt : amount ≠ 0) :
    st.heapVtop % PAGE_SIZE = 0 ∧ r = st.heapVtop ∧
    st1.heapVtop = (if amount > 0 then sbrk_round_up (wrap32 ((st.heapVtop : Int) + amount))
      else sbrk_round_down (wrap32 ((st.heapVtop : Int) + amount))) := by
  unfold sys_sbrk at h
  rw [if_neg hamt] at h
  by_cases c1 : st.heapVtop % PAGE_SIZE ≠ 0
  · rw [if_pos c1] at h; exact absurd h (by simp)
  · rw [if_neg c1] at h
    push_neg at c1
    by_cases c2 : wrap32 ((st.heapVtop : Int) + amount) = st.heapVtop
    · rw [if_pos c2] at h; exact absurd h (by simp)
    · rw [if_neg c2] at h
      by_cases c3 : ((if amount > 0 then sbrk_round_up (wrap32 ((st.heapVtop : Int) + amount))
            else sbrk_round_down (wrap32 ((st.heapVtop : Int) + amount)))
            + U32 - st.heapVtop % U32) % U32 % PAGE_SIZE ≠ 0
      · rw [if_pos c3] at h; exact absurd h (by simp)
      · rw [if_neg c3] at h
        by_cases c4 : (if amount > 0 then sbrk_round_up (wrap32 ((st.heapVtop : Int) + amount))
            else sbrk_round_down (wrap32 ((st.heapVtop : Int) + amount))) < st.heapVbase
        · rw [if_pos c4] at h; exact absurd h (by simp)
        · rw [if_neg c4] at h
          by_cases c5 : st.stackVbase ≤ (if amount > 0 then
                sbrk_round_up (wrap32 ((st.heapVtop : Int) + amount))
              else sbrk_round_down (wrap32 ((st.heapVtop : Int) + amount)))
          · rw [if_pos c5] at h; exact absurd h (by simp)
          · rw [if_neg c5] at h
            by_cases c6 : ((if amount > 0 then sbrk_round_up (wrap32 ((st.heapVtop : Int) + amount))
                  else sbrk_round_down (wrap32 ((st.heapVtop : Int) + amount))) - st.heapVbase)
                  / PAGE_SIZE * PAGE_SIZE ≠
                  (if amount > 0 then sbrk_round_up (wrap32 ((st.heapVtop : Int) + amount))
                  else sbrk_round_down (wrap32 ((st.heapVtop : Int) + amount))) - st.heapVbase
            · rw [if_pos c6] at h; exact absurd h (by simp)
            · rw [if_neg c6] at h
              simp only [SbrkResult.ok.injEq] at h
              obtain ⟨hr, hst⟩ := h
              subst hst
              exact ⟨c1, hr.symm, rfl⟩

theorem sbrk_arith (old N : Nat) (hal : old % PAGE_SIZE = 0) (hlt : old < U32) :
    sbrk_round_down (wrap32 ((sbrk_round_up (wrap32 ((old : Int) + N)) : Int) - N)) = old := by
  simp only [sbrk_round_down, sbrk_round_up, wrap32, PAGE_SIZE, U32] at hal hlt ⊢
  omega

/-- C7: for every n > 0 and every heap state below 2^32 in which both calls
succeed, sbrk(n) followed by sbrk(-n) restores heap.vtop to its value
before the pair of calls (growth rounds the break up to a page, the
shrink rounds back down, and the two roundings cancel on a page-aligned
break, uint32 wrap-around included). -/
theorem claim_C7_sbrk_roundtrip (n : Int) (st st1 st2 : SbrkState) (r1 r2 : Nat)
    (hn : 0 < n) (hlt : st.heapVtop < U32)
    (h1 : sys_sbrk n st = .ok r1 st1)
    (h2 : sys_sbrk (-n) st1 = .ok r2 st2) :
    st2.heapVtop = st.heapVtop := by
  obtain ⟨hal, hr1, hv1⟩ := sys_sbrk_ok_vtop h1 (by omega)
  obtain ⟨hal1, hr2, hv2⟩ := sys_sbrk_ok_vtop h2 (by omega)
  rw [if_pos hn] at hv1
  rw [if_neg (by omega : ¬(-n > 0))] at hv2
  rw [hv2, hv1]
  have hN : (n.toNat : Int) = n := Int.toNat_of_nonneg (by omega)
  have harith := sbrk_arith st.heapVtop n.toNat hal hlt
  rw [hN] at harith
  rw [show (sbrk_round_up (wrap32 ((st.heapVtop : Int) + n)) : Int) + -n =
      (sbrk_round_up (wrap32 ((st.heapVtop : Int) + n)) : Int) - n by ring]
  exact harith

/-- Heap state of the spec scenario: empty heap at 0x40000000, stack base
at 0x7ffee000. -/
def sbrkSt0 : SbrkState := ⟨0x40000000, 0x40000000, 0, 0x7ffee000⟩

/-- The heap state after sbrk(5000): the break grew to 0x40002000 (5000
bytes rounded up to two pages). -/
def sbrkSt1 : SbrkState := ⟨0x40000000, 0x40002000, 2, 0x7ffee000⟩

theorem claim_C7_witness :
    sys_sbrk 5000 sbrkSt0 = .ok 0x40000000 sbrkSt1 ∧
    sys_sbrk (-5000) sbrkSt1 = .ok 0x40002000 sbrkSt0 ∧
    sbrkSt0.heapVtop = sbrkSt0.heapVtop :=
  ⟨by decide, by decide,
    claim_C7_sbrk_roundtrip 5000 sbrkSt0 sbrkSt1 sbrkSt0 0x40000000 0x40002000
      (by omega) (by decide) (by decide) (by decide)⟩
